import Mathlib

/-!
Verification of `name_relevance_detector.py` (class `NameRelevanceDetector`).

The Python module statically analyzes one Python source file: it walks the
parsed AST, scores how well each class / free-function name matches its own
implementation text, and aggregates an overall score.

Shallow embedding conventions:
* Python `ast` statement nodes are modelled by the inductive `Stmt`.  Only the
  statement constructors the detector reacts to are distinguished
  (`ClassDef`, `FunctionDef`, `AsyncFunctionDef`, `Assign`); every other
  statement kind is collapsed into `other`, which still carries the nested
  statements that `ast.walk` would traverse (bodies of `if`/`for`/`try`/...).
  `ClassDef` and `FunctionDef` nodes can only occur in statement position, so
  walking statement children visits every class / function definition that
  `ast.walk` would yield.
* `ast.get_docstring node` is modelled by the `doc` field carried on class and
  function nodes (the detector only ever consumes the docstring through
  `ast.get_docstring`, defaulted to `""`).
* `FunctionDef`/`AsyncFunctionDef` carry `lineno`/`endLineno` (1-based), used
  by `_get_node_source` to slice the raw file text.
* Python floats are modelled by `ℚ`; every score the detector manipulates is
  a finite sum of halves and tenths divided by small integers.
* Strings are ASCII-lowered with `Char.toLower`, matching `str.lower` on the
  ASCII identifiers and source text the tool is aimed at.
-/

namespace NRD

/-- Assignment-target node (`ast.Assign.targets` elements): a plain name
(`ast.Name`), a tuple/list pattern, or anything else (attribute/subscript). -/
inductive PyTarget where
  | name (id : String)
  | tuple (elts : List PyTarget)
  | otherTarget

mutual

/-- Boolean structural equality on targets (node identity in the Python AST;
distinct parsed nodes carry distinct positions, so structural equality on the
embedded trees plays the role of `==` on `ast` nodes). -/
def PyTarget.beq : PyTarget → PyTarget → Bool
  | .name a, .name b => a == b
  | .tuple a, .tuple b => PyTarget.beqList a b
  | .otherTarget, .otherTarget => true
  | _, _ => false

def PyTarget.beqList : List PyTarget → List PyTarget → Bool
  | [], [] => true
  | a :: as, b :: bs => PyTarget.beq a b && PyTarget.beqList as bs
  | _, _ => false

end

mutual

theorem PyTarget.tbeq_iff : ∀ (a b : PyTarget), PyTarget.beq a b = true ↔ a = b
  | .name x, .name y => by simp [PyTarget.beq]
  | .name _, .tuple _ => by simp [PyTarget.beq]
  | .name _, .otherTarget => by simp [PyTarget.beq]
  | .tuple _, .name _ => by simp [PyTarget.beq]
  | .tuple xs, .tuple ys => by
      simpa [PyTarget.beq] using PyTarget.tbeqList_iff xs ys
  | .tuple _, .otherTarget => by simp [PyTarget.beq]
  | .otherTarget, .name _ => by simp [PyTarget.beq]
  | .otherTarget, .tuple _ => by simp [PyTarget.beq]
  | .otherTarget, .otherTarget => by simp [PyTarget.beq]

theorem PyTarget.tbeqList_iff :
    ∀ (as bs : List PyTarget), PyTarget.beqList as bs = true ↔ as = bs
  | [], [] => by simp [PyTarget.beqList]
  | [], _ :: _ => by simp [PyTarget.beqList]
  | _ :: _, [] => by simp [PyTarget.beqList]
  | a :: as, b :: bs => by
      simp [PyTarget.beqList, Bool.and_eq_true, PyTarget.tbeq_iff a b,
        PyTarget.tbeqList_iff as bs]

end

instance : DecidableEq PyTarget :=
  fun a b => decidable_of_iff _ (PyTarget.tbeq_iff a b)

/-- Python statement nodes, as far as `NameRelevanceDetector` observes them. -/
inductive Stmt where
  | classDef (nm : String) (doc : Option String) (body : List Stmt)
  | functionDef (nm : String) (doc : Option String) (body : List Stmt)
      (lineno endLineno : Nat)
  | asyncFunctionDef (nm : String) (doc : Option String) (body : List Stmt)
      (lineno endLineno : Nat)
  | assign (targets : List PyTarget)
  | other (body : List Stmt)

mutual

/-- Boolean structural equality on statements (see `PyTarget.beq`). -/
def Stmt.beq : Stmt → Stmt → Bool
  | .classDef n1 d1 b1, .classDef n2 d2 b2 =>
      n1 == n2 && d1 == d2 && Stmt.beqList b1 b2
  | .functionDef n1 d1 b1 l1 e1, .functionDef n2 d2 b2 l2 e2 =>
      n1 == n2 && d1 == d2 && Stmt.beqList b1 b2 && l1 == l2 && e1 == e2
  | .asyncFunctionDef n1 d1 b1 l1 e1, .asyncFunctionDef n2 d2 b2 l2 e2 =>
      n1 == n2 && d1 == d2 && Stmt.beqList b1 b2 && l1 == l2 && e1 == e2
  | .assign t1, .assign t2 => decide (t1 = t2)
  | .other b1, .other b2 => Stmt.beqList b1 b2
  | _, _ => false

def Stmt.beqList : List Stmt → List Stmt → Bool
  | [], [] => true
  | a :: as, b :: bs => Stmt.beq a b && Stmt.beqList as bs
  | _, _ => false

end

mutual

theorem Stmt.sbeq_iff : ∀ (a b : Stmt), Stmt.beq a b = true ↔ a = b
  | .classDef n1 d1 b1, .classDef n2 d2 b2 => by
      simp [Stmt.beq, Bool.and_eq_true, Stmt.sbeqList_iff b1 b2, and_assoc]
  | .functionDef n1 d1 b1 l1 e1, .functionDef n2 d2 b2 l2 e2 => by
      simp [Stmt.beq, Bool.and_eq_true, Stmt.sbeqList_iff b1 b2, and_assoc]
  | .asyncFunctionDef n1 d1 b1 l1 e1, .asyncFunctionDef n2 d2 b2 l2 e2 => by
      simp [Stmt.beq, Bool.and_eq_true, Stmt.sbeqList_iff b1 b2, and_assoc]
  | .assign t1, .assign t2 => by simp [Stmt.beq]
  | .other b1, .other b2 => by
      simpa [Stmt.beq] using Stmt.sbeqList_iff b1 b2
  | .classDef _ _ _, .functionDef _ _ _ _ _ => by simp [Stmt.beq]
  | .classDef _ _ _, .asyncFunctionDef _ _ _ _ _ => by simp [Stmt.beq]
  | .classDef _ _ _, .assign _ => by simp [Stmt.beq]
  | .classDef _ _ _, .other _ => by simp [Stmt.beq]
  | .functionDef _ _ _ _ _, .classDef _ _ _ => by simp [Stmt.beq]
  | .functionDef _ _ _ _ _, .asyncFunctionDef _ _ _ _ _ => by simp [Stmt.beq]
  | .functionDef _ _ _ _ _, .assign _ => by simp [Stmt.beq]
  | .functionDef _ _ _ _ _, .other _ => by simp [Stmt.beq]
  | .asyncFunctionDef _ _ _ _ _, .classDef _ _ _ => by simp [Stmt.beq]
  | .asyncFunctionDef _ _ _ _ _, .functionDef _ _ _ _ _ => by simp [Stmt.beq]
  | .asyncFunctionDef _ _ _ _ _, .assign _ => by simp [Stmt.beq]
  | .asyncFunctionDef _ _ _ _ _, .other _ => by simp [Stmt.beq]
  | .assign _, .classDef _ _ _ => by simp [Stmt.beq]
  | .assign _, .functionDef _ _ _ _ _ => by simp [Stmt.beq]
  | .assign _, .asyncFunctionDef _ _ _ _ _ => by simp [Stmt.beq]
  | .assign _, .other _ => by simp [Stmt.beq]
  | .other _, .classDef _ _ _ => by simp [Stmt.beq]
  | .other _, .functionDef _ _ _ _ _ => by simp [Stmt.beq]
  | .other _, .asyncFunctionDef _ _ _ _ _ => by simp [Stmt.beq]
  | .other _, .assign _ => by simp [Stmt.beq]

theorem Stmt.sbeqList_iff :
    ∀ (as bs : List Stmt), Stmt.beqList as bs = true ↔ as = bs
  | [], [] => by simp [Stmt.beqList]
  | [], _ :: _ => by simp [Stmt.beqList]
  | _ :: _, [] => by simp [Stmt.beqList]
  | a :: as, b :: bs => by
      simp [Stmt.beqList, Bool.and_eq_true, Stmt.sbeq_iff a b,
        Stmt.sbeqList_iff as bs]

end

instance : DecidableEq Stmt :=
  fun a b => decidable_of_iff _ (Stmt.sbeq_iff a b)

/-- The parsed module (`ast.Module`): its body is the list of top-level
statements, which is exactly what `ast.iter_child_nodes(self.tree)` yields. -/
structure PyModule where
  body : List Stmt
deriving DecidableEq

/-- The statement children of a node, i.e. the nested statements that
`ast.walk` will enqueue from it. -/
def Stmt.children : Stmt → List Stmt
  | .classDef _ _ b => b
  | .functionDef _ _ b _ _ => b
  | .asyncFunctionDef _ _ b _ _ => b
  | .assign _ => []
  | .other b => b

theorem sizeOf_list_lt (l : List Stmt) : (l.map sizeOf).sum < sizeOf l := by
  induction l with
  | nil => simp
  | cons x xs ih =>
    simp only [List.map_cons, List.sum_cons, List.cons.sizeOf_spec]
    omega

theorem sizeOf_children_lt (s : Stmt) : ((s.children).map sizeOf).sum < sizeOf s := by
  cases s with
  | classDef nm doc b =>
    have h := sizeOf_list_lt b
    simp only [Stmt.children, Stmt.classDef.sizeOf_spec]
    omega
  | functionDef nm doc b ln el =>
    have h := sizeOf_list_lt b
    simp only [Stmt.children, Stmt.functionDef.sizeOf_spec]
    omega
  | asyncFunctionDef nm doc b ln el =>
    have h := sizeOf_list_lt b
    simp only [Stmt.children, Stmt.asyncFunctionDef.sizeOf_spec]
    omega
  | assign t =>
    simp [Stmt.children]
  | other b =>
    have h := sizeOf_list_lt b
    simp only [Stmt.children, Stmt.other.sizeOf_spec]
    omega

/-- Breadth-first traversal of all statements, mirroring `ast.walk`: a queue
is initialised with the root's children and each dequeued node is yielded and
its children appended.  (`ast.walk(self.tree)` yields the `Module` node first;
the module is neither a class nor a function, so the detector ignores it and
only the statement stream below matters.) -/
def walk (queue : List Stmt) : List Stmt :=
  match queue with
  | [] => []
  | s :: rest => s :: walk (rest ++ s.children)
termination_by (queue.map sizeOf).sum
decreasing_by
  simp only [List.map_append, List.sum_append, List.map_cons, List.sum_cons]
  have h := sizeOf_children_lt s
  omega

@[simp] theorem walk_nil : walk [] = [] := by
  simp [walk]

@[simp] theorem walk_cons (s : Stmt) (rest : List Stmt) :
    walk (s :: rest) = s :: walk (rest ++ s.children) := by
  rw [walk]

/-! ### Name splitting (`_split_name`) -/

/-- `str.lower()` on ASCII text. -/
def pyLower (s : String) : String := String.mk (s.toList.map Char.toLower)

/-- The accumulated buffer, lowercased, emitted as a token. -/
def lowerBuf (cs : List Char) : String := String.mk (cs.map Char.toLower)

/-- The camelCase / PascalCase loop of `_split_name`: scan left to right,
emitting the buffer whenever an uppercase character arrives while the buffer
is non-empty. -/
def camelSplit : List Char → List Char → List String
  | [], current => if current.isEmpty then [] else [lowerBuf current]
  | c :: rest, current =>
    if c.isUpper && !current.isEmpty then
      lowerBuf current :: camelSplit rest [c]
    else
      camelSplit rest (current ++ [c])

/-- `str.split(sep)` for a one-character separator: `[] :: _` marks an empty
segment before each separator occurrence; `splitOnChar sep []` is `[[]]`,
matching `"".split(sep) == [""]`. -/
def splitOnChar (sep : Char) (cs : List Char) : List (List Char) :=
  match cs with
  | [] => [[]]
  | c :: rest =>
    if c == sep then [] :: splitOnChar sep rest
    else
      match splitOnChar sep rest with
      | [] => [[c]]
      | g :: gs => (c :: g) :: gs

/-- `_split_name`: snake_case names split on the underscore (empty segments
dropped, segments lowercased); otherwise the camelCase loop runs. -/
def splitName (name : String) : List String :=
  if name.toList.contains '_' then
    ((splitOnChar '_' name.toList).filter (fun p => p ≠ [])).map lowerBuf
  else
    camelSplit name.toList []

/-! ### Token matching (`_calculate_relevance`, step 4) -/

/-- Regex word characters (`\w`, ASCII). -/
def isWordChar (c : Char) : Bool := c.isAlphanum || c == '_'

/-- Does `part` occur in `hay` starting at index `i`? -/
def matchAt (hay part : List Char) (i : Nat) : Bool :=
  (hay.drop i).take part.length == part

/-- Occurrence of `part` at index `i` of `hay` flanked by `\b` word
boundaries.  This models `re.search` of `\b <token> \b` for the tokens
produced by `_split_name`, which consist solely of word characters, so a
boundary holds exactly when the neighbouring character (if any) is not a word
character. -/
def wholeWordAt (hay part : List Char) (i : Nat) : Bool :=
  matchAt hay part i
    && (i == 0 || !isWordChar (hay.getD (i - 1) ' '))
    && (i + part.length == hay.length || !isWordChar (hay.getD (i + part.length) ' '))

/-- `re.search(r'\b' + re.escape(part) + r'\b', implementation, re.IGNORECASE)`
for a lowercase token `part`: case-insensitivity is realised by lowering the
searched text. -/
def wholeWordMatch (part impl : String) : Bool :=
  (List.range (impl.toList.length + 1)).any (fun i =>
    wholeWordAt (impl.toList.map Char.toLower) part.toList i)

/-- `part in implementation.lower()` (Python substring test). -/
def substrMatch (part impl : String) : Bool :=
  (List.range (impl.toList.length + 1)).any (fun i =>
    matchAt (impl.toList.map Char.toLower) part.toList i)

/-! ### Relevance scoring (`_calculate_relevance`) -/

/-- The fixed stoplist of semantically empty name parts. -/
def stoplist : List String := ["get", "set", "is", "has", "on", "class"]

/-- Name tokens surviving the stoplist filter. -/
def filteredParts (name : String) : List String :=
  (splitName name).filter (fun p => !stoplist.contains p)

/-- One token's contribution to `found_parts`: 1 for a long whole-word match,
0.5 for a substring match, otherwise 0. -/
def tokenScore (impl part : String) : ℚ :=
  if part.length > 2 && wholeWordMatch part impl then 1
  else if substrMatch part impl then 0.5
  else 0

/-- The `found_parts` accumulation loop. -/
def foundParts (name impl : String) : ℚ :=
  (filteredParts name).foldl
    (fun acc part =>
      if part.length > 2 && wholeWordMatch part impl then acc + 1
      else if substrMatch part impl then acc + 0.5
      else acc) 0

/-- The pre-penalty score: 0.5 when no meaningful token remains, else the
match ratio `found_parts / len(filtered_parts)`.  (The source's trailing
`if filtered_parts else 0.0` guard sits inside the non-empty branch and is
dead code.) -/
def baseScore (name impl : String) : ℚ :=
  if (filteredParts name).isEmpty then 0.5
  else foundParts name impl / (filteredParts name).length

/-- The early-exit reason emitted when the filtered token list is empty. -/
def baseReasons (name : String) : List String :=
  if (filteredParts name).isEmpty then ["Name doesn't contain meaningful parts"]
  else []

/-- The names attracting the generic-name penalty. -/
def genericNames : List String := ["test", "helper", "util", "utility", "misc"]

/-- Score after the generic-name (−0.2) and short-name (−0.3) penalties,
before clamping. -/
def preClampScore (name impl : String) : ℚ :=
  let s1 := baseScore name impl
  let s2 := if genericNames.contains (pyLower name) then s1 - 0.2 else s1
  if name.length ≤ 2 then s2 - 0.3 else s2

/-- The penalty reasons, in the order the penalties are applied. -/
def penaltyReasons (name : String) : List String :=
  (if genericNames.contains (pyLower name) then ["Name is too generic"] else [])
    ++ (if name.length ≤ 2 then ["Name is too short"] else [])

/-- The classification reason chosen from the pre-clamp score, ascending
bands, first match wins. -/
def classifyReason (score : ℚ) : String :=
  if score < 0.3 then "Name different from implementation - Wrong name"
  else if score < 0.5 then "Name somewhat reflects implementation - Consider changing"
  else if score < 0.6 then "Name reflects implementation - needs improvement"
  else if score < 0.7 then "Name reflects implementation - good"
  else "Name reflects implementation well"

/-- `_calculate_relevance`: the clamped score and the reason sequence
(early-exit reason, penalty reasons, classification reason, in order). -/
def calcRelevance (name impl : String) : ℚ × List String :=
  let pre := preClampScore name impl
  (max 0 (min 1 pre),
   baseReasons name ++ penaltyReasons name ++ [classifyReason pre])

/-! ### Implementation summaries -/

/-- `_extract_class_attributes`: the nested append loop over the class body
(`node.body`); every `ast.Name` among an assignment's targets contributes. -/
def extractClassAttributes (body : List Stmt) : List String :=
  body.foldl
    (fun acc n =>
      match n with
      | Stmt.assign targets =>
          targets.foldl
            (fun acc2 t =>
              match t with
              | PyTarget.name id => acc2 ++ [id]
              | _ => acc2) acc
      | _ => acc) []

/-- Direct method names of a class body:
`[n.name for n in node.body if isinstance(n, ast.FunctionDef)]`.
`ast.AsyncFunctionDef` is a distinct class, not a subclass of
`ast.FunctionDef`, so async methods do not pass the `isinstance` test. -/
def methodNames (body : List Stmt) : List String :=
  body.filterMap (fun n =>
    match n with
    | Stmt.functionDef nm _ _ _ _ => some nm
    | _ => none)

/-- `_get_node_source`: physical lines `lineno .. endLineno` (1-based,
inclusive) of the raw file text, joined by single spaces.  `if not self.code`
is also true for the empty string. -/
def getNodeSource (code : Option String) (lineno endLineno : Nat) : String :=
  match code with
  | none => ""
  | some c =>
    if c = "" then ""
    else String.intercalate " "
      (((c.splitOn "\n").drop (lineno - 1)).take (endLineno - (lineno - 1)))

/-- `_is_method`: the node occurs in the body of a class definition that is a
direct child of the module node (`ast.iter_child_nodes(self.tree)` yields
exactly the top-level statements; non-class parents fail the `isinstance`
test inside `any`). -/
def isMethod (m : PyModule) (node : Stmt) : Bool :=
  m.body.any (fun parent =>
    match parent with
    | Stmt.classDef _ _ body => body.contains node
    | _ => false)

/-! ### Suggestion generation (`_generate_suggestion`) -/

/-- `re.findall(r'\b[a-zA-Z]{3,}\b', s)`: maximal alphabetic runs of length at
least 3 whose neighbouring characters are not word characters (a digit or
underscore next to the run defeats the `\b` boundary, and no shorter sub-run
can match either since its boundary would fall between two letters).  `prev`
is the character just before `cs`, `none` at the start of the string. -/
theorem dropWhile_length_le {α : Type} (p : α → Bool) (l : List α) :
    (l.dropWhile p).length ≤ l.length := by
  induction l with
  | nil => simp
  | cons x xs ih =>
    by_cases h : p x
    · rw [List.dropWhile_cons_of_pos h]; simpa using Nat.le_succ_of_le ih
    · rw [List.dropWhile_cons_of_neg h]

def findWords (cs : List Char) (prev : Option Char) : List String :=
  match cs with
  | [] => []
  | c :: rest =>
    if h : c.isAlpha then
      let run := List.takeWhile Char.isAlpha (c :: rest)
      let rest2 := List.dropWhile Char.isAlpha (c :: rest)
      let okLeft := match prev with
        | none => true
        | some p => !isWordChar p
      let okRight := match rest2 with
        | [] => true
        | q :: _ => !isWordChar q
      (if 3 ≤ run.length && okLeft && okRight then [String.mk run] else [])
        ++ findWords rest2 (some (run.getLastD c))
    else
      findWords rest (some c)
termination_by cs.length
decreasing_by
  · rw [List.dropWhile_cons_of_pos h]
    have h3 := dropWhile_length_le Char.isAlpha rest
    simp only [List.length_cons]
    omega
  · simp

/-- `collections.Counter` over the word list: counts in first-occurrence
order (dict insertion order). -/
def countWords (ws : List String) : List (String × Nat) :=
  ws.foldl
    (fun acc w =>
      if acc.any (fun p => p.1 == w) then
        acc.map (fun p => if p.1 == w then (p.1, p.2 + 1) else p)
      else acc ++ [(w, 1)]) []

/-- Insert into a descending-by-count list, after all entries with a count at
least as large (so earlier entries stay ahead on ties). -/
def insertByCount (p : String × Nat) : List (String × Nat) → List (String × Nat)
  | [] => [p]
  | q :: rest => if q.2 ≤ p.2 then p :: q :: rest else q :: insertByCount p rest

/-- `Counter.most_common` ordering: stable descending sort by count (ties keep
first-encountered order, as CPython documents). -/
def sortByCountDesc (l : List (String × Nat)) : List (String × Nat) :=
  l.foldr insertByCount []

/-- The stop words deleted from the counter before ranking. -/
def suggestionStopWords : List String :=
  ["the", "and", "for", "with", "from", "self", "none", "true", "false", "return"]

/-- `str.capitalize()`: first character uppercased, the rest lowercased. -/
def pyCapitalize (w : String) : String :=
  match w.toList with
  | [] => ""
  | c :: rest => String.mk (c.toUpper :: rest.map Char.toLower)

/-- `_generate_suggestion`: top-3 frequent meaningful words of the lowered
implementation text, formatted after the original name's casing style.
(`original_name[0]` presupposes a non-empty name, as every analysed
identifier is; an empty name takes the camelCase branch here.) -/
def generateSuggestion (originalName impl : String) : String :=
  let words := findWords (pyLower impl).toList none
  let counts := (countWords words).filter (fun p => !suggestionStopWords.contains p.1)
  let common := ((sortByCountDesc counts).take 3).map (fun p => p.1)
  if common.isEmpty then
    "Consider adding a clear docstring to help determine a better name"
  else if originalName.toList.contains '_' then
    "Consider: " ++ String.intercalate "_" common
  else if (originalName.toList.headD ' ').isUpper then
    "Consider: " ++ String.join (common.map pyCapitalize)
  else
    "Consider: " ++ common.headD "" ++ String.join ((common.drop 1).map pyCapitalize)

/-! ### The report (`analyze`) -/

/-- One entry of the `classes` / `functions` sequences. -/
structure Entry where
  name : String
  relevance_score : ℚ
  reasons : List String
  suggestion : Option String
deriving DecidableEq

/-- The success-side analysis report. -/
structure Report where
  classes : List Entry
  functions : List Entry
  overall_score : ℚ
deriving DecidableEq

/-- The result of `analyze`: either `{"error": ...}` or the full report. -/
inductive AnalysisResult where
  | error (msg : String)
  | ok (report : Report)
deriving DecidableEq

/-- `_analyze_classes`: every `ClassDef` yielded by the walk becomes an entry;
the implementation summary is docstring, method names and attribute names
joined by single spaces. -/
def analyzeClasses (m : PyModule) : List Entry :=
  (walk m.body).filterMap (fun node =>
    match node with
    | Stmt.classDef nm doc body =>
        let implSummary :=
          (doc.getD "") ++ " " ++ String.intercalate " " (methodNames body)
            ++ " " ++ String.intercalate " " (extractClassAttributes body)
        let sr := calcRelevance nm implSummary
        some { name := nm, relevance_score := sr.1, reasons := sr.2,
               suggestion :=
                 if sr.1 < 0.7 then some (generateSuggestion nm implSummary)
                 else none }
    | _ => none)

/-- The entry `_analyze_functions` builds for one function definition. -/
def mkFunctionEntry (code : Option String) (nm : String) (doc : Option String)
    (lineno endLineno : Nat) : Entry :=
  let implSummary := (doc.getD "") ++ " " ++ getNodeSource code lineno endLineno
  let sr := calcRelevance nm implSummary
  { name := nm, relevance_score := sr.1, reasons := sr.2,
    suggestion :=
      if sr.1 < 0.7 then some (generateSuggestion nm implSummary) else none }

/-- `_analyze_functions`: every `FunctionDef` yielded by the walk that is not
a method becomes an entry. -/
def analyzeFunctions (code : Option String) (m : PyModule) : List Entry :=
  (walk m.body).filterMap (fun node =>
    match node with
    | Stmt.functionDef nm doc _ ln el =>
        if isMethod m node then none
        else some (mkFunctionEntry code nm doc ln el)
    | _ => none)

/-- `isinstance(node, ast.FunctionDef)`. -/
def isFunctionDef : Stmt → Bool
  | Stmt.functionDef _ _ _ _ _ => true
  | _ => false

/-- `isinstance(node, ast.AsyncFunctionDef)`. -/
def isAsyncFunctionDef : Stmt → Bool
  | Stmt.asyncFunctionDef _ _ _ _ _ => true
  | _ => false

/-- The function nodes `_analyze_functions` turns into entries. -/
def scoredFunctionNodes (m : PyModule) : List Stmt :=
  (walk m.body).filter (fun s => isFunctionDef s && !isMethod m s)

/-- The entry built from a scored function node (the fallback entry is
unreachable for elements of `scoredFunctionNodes`). -/
def functionEntryOf (code : Option String) (s : Stmt) : Entry :=
  match s with
  | Stmt.functionDef nm doc _ ln el => mkFunctionEntry code nm doc ln el
  | _ => { name := "", relevance_score := 0, reasons := [], suggestion := none }

/-- The success branch of `analyze`: the two entry sequences and the overall
score (initialised to 0.0 and overwritten with the mean when any scores
exist). -/
def buildReport (code : Option String) (m : PyModule) : Report :=
  let classes := analyzeClasses m
  let functions := analyzeFunctions code m
  let allScores :=
    classes.map Entry.relevance_score ++ functions.map Entry.relevance_score
  { classes := classes
    functions := functions
    overall_score :=
      if allScores.isEmpty then 0 else allScores.sum / (allScores.length : ℚ) }

/-- `analyze`, with the detector state after `__init__`: `tree` is `none`
exactly when `load_file` failed to read or parse the file (the exception is
caught, leaving `self.tree = None`; a parsed `ast.Module` is always truthy). -/
def analyze (code : Option String) (tree : Option PyModule) : AnalysisResult :=
  match tree with
  | none => AnalysisResult.error "Failed to parse the file"
  | some m => AnalysisResult.ok (buildReport code m)

/-! ## Helper lemmas -/

theorem foldl_tokenScore (impl : String) (l : List String) (acc : ℚ) :
    l.foldl
      (fun acc part =>
        if part.length > 2 && wholeWordMatch part impl then acc + 1
        else if substrMatch part impl then acc + 0.5
        else acc) acc
      = acc + (l.map (tokenScore impl)).sum := by
  induction l generalizing acc with
  | nil => simp
  | cons p rest ih =>
    simp only [List.foldl_cons, List.map_cons, List.sum_cons, ih, tokenScore]
    split_ifs <;> ring

theorem foundParts_eq_sum (name impl : String) :
    foundParts name impl = ((filteredParts name).map (tokenScore impl)).sum := by
  unfold foundParts
  rw [foldl_tokenScore]
  ring

/-- `_analyze_functions` builds exactly one entry per scored function node. -/
theorem analyzeFunctions_eq_map (code : Option String) (m : PyModule) :
    analyzeFunctions code m = (scoredFunctionNodes m).map (functionEntryOf code) := by
  unfold analyzeFunctions scoredFunctionNodes
  induction walk m.body with
  | nil => simp
  | cons s rest ih =>
    cases s with
    | functionDef nm doc b ln el =>
      by_cases hm : isMethod m (Stmt.functionDef nm doc b ln el)
      · simp [List.filterMap_cons, List.filter_cons, isFunctionDef, hm, ih]
      · simp [List.filterMap_cons, List.filter_cons, isFunctionDef, hm, ih,
          functionEntryOf]
    | classDef nm doc b => simpa [List.filterMap_cons, List.filter_cons, isFunctionDef] using ih
    | asyncFunctionDef nm doc b ln el =>
      simpa [List.filterMap_cons, List.filter_cons, isFunctionDef] using ih
    | assign t => simpa [List.filterMap_cons, List.filter_cons, isFunctionDef] using ih
    | other b => simpa [List.filterMap_cons, List.filter_cons, isFunctionDef] using ih

theorem camelSplit_length (cs : List Char) (cur : List Char) (h : cur ≠ []) :
    (camelSplit cs cur).length = 1 + cs.countP (fun c => c.isUpper) := by
  induction cs generalizing cur with
  | nil =>
    have hne : cur.isEmpty = false := by
      cases cur with
      | nil => exact absurd rfl h
      | cons a as => rfl
    simp [camelSplit, hne]
  | cons c rest ih =>
    have hne : cur.isEmpty = false := by
      cases cur with
      | nil => exact absurd rfl h
      | cons a as => rfl
    by_cases hU : c.isUpper
    · have h1 := ih [c] (by simp)
      simp only [camelSplit, hU, hne, Bool.not_false, Bool.and_self,
        if_true, List.length_cons, List.countP_cons, hU, if_pos]
      simp [h1, List.countP_cons]
      omega
    · have h1 := ih (cur ++ [c]) (by simp)
      simp only [camelSplit, hU, hne, Bool.false_and, Bool.and_false, if_neg,
        Bool.not_false]
      simp [hU, h1, List.countP_cons]

/-! ## Claims -/

/-- **C2, counterexample.**  A compound (multi-target) assignment
`a = b = ...` at the top of a class body contributes both target names to the
attribute list, so it is false that compound assignments contribute no
attribute names. -/
theorem C2_counterexample :
    extractClassAttributes [Stmt.assign [PyTarget.name "a", PyTarget.name "b"]]
        = ["a", "b"]
      ∧ (["a", "b"] : List String) ≠ [] := by
  exact ⟨rfl, by decide⟩

/-- Attribute extraction as the amended claim words it: every `ast.Name`
target of any top-level `Assign` statement of the class body contributes its
identifier, in order — each `Name` target of a multi-target assignment
included — while tuple targets and other non-`Name` targets contribute
nothing (they are skipped, not recursed into). -/
def specAttributeNames (body : List Stmt) : List String :=
  (body.map (fun s =>
    match s with
    | Stmt.assign targets =>
        targets.filterMap (fun t =>
          match t with
          | PyTarget.name id => some id
          | _ => none)
    | _ => [])).flatten

theorem targets_foldl_eq (targets : List PyTarget) (acc : List String) :
    targets.foldl
        (fun acc2 t =>
          match t with
          | PyTarget.name id => acc2 ++ [id]
          | _ => acc2) acc
      = acc ++ targets.filterMap (fun t =>
          match t with
          | PyTarget.name id => some id
          | _ => none) := by
  induction targets generalizing acc with
  | nil => simp
  | cons t rest ih =>
    cases t <;> simp [List.filterMap_cons, ih]

theorem extract_foldl_eq (body : List Stmt) (acc : List String) :
    body.foldl
        (fun acc n =>
          match n with
          | Stmt.assign targets =>
              targets.foldl
                (fun acc2 t =>
                  match t with
                  | PyTarget.name id => acc2 ++ [id]
                  | _ => acc2) acc
          | _ => acc) acc
      = acc ++ specAttributeNames body := by
  induction body generalizing acc with
  | nil => simp [specAttributeNames]
  | cons s rest ih =>
    cases s with
    | assign targets =>
      simp only [List.foldl_cons]
      rw [ih, targets_foldl_eq]
      simp [specAttributeNames, List.append_assoc]
    | classDef nm doc b =>
      simp only [List.foldl_cons]
      rw [ih]
      simp [specAttributeNames]
    | functionDef nm doc b ln el =>
      simp only [List.foldl_cons]
      rw [ih]
      simp [specAttributeNames]
    | asyncFunctionDef nm doc b ln el =>
      simp only [List.foldl_cons]
      rw [ih]
      simp [specAttributeNames]
    | other b =>
      simp only [List.foldl_cons]
      rw [ih]
      simp [specAttributeNames]

/-- **C2, amended.**  For every class body, the extracted attribute names are
exactly the identifiers of the `Name`-typed targets of top-level `Assign`
statements, in order: every `Name` target of a multi-target assignment
contributes, and tuple targets (and all other non-`Name` targets) contribute
nothing. -/
theorem C2_attributes_from_name_targets (body : List Stmt) :
    extractClassAttributes body = specAttributeNames body := by
  unfold extractClassAttributes
  simpa using extract_foldl_eq body []

/-- **C3.**  When the stoplist-filtered token list is non-empty, the base
score is the sum over filtered tokens of 1 (length above 2 and a
case-insensitive whole-word occurrence), else 0.5 (a case-insensitive
substring occurrence), else 0, divided by the number of filtered tokens. -/
theorem C3_base_score (name impl : String) (h : filteredParts name ≠ []) :
    baseScore name impl =
      ((filteredParts name).map (tokenScore impl)).sum
        / ((filteredParts name).length : ℚ) := by
  have hne : (filteredParts name).isEmpty = false := by
    cases hfp : filteredParts name with
    | nil => exact absurd hfp h
    | cons a as => rfl
  rw [baseScore, hne, foundParts_eq_sum]
  simp

theorem C3_base_score_witness :
    filteredParts "userData" ≠ []
      ∧ baseScore "userData" "user stuff" =
          ((filteredParts "userData").map (tokenScore "user stuff")).sum
            / ((filteredParts "userData").length : ℚ) :=
  ⟨by decide, C3_base_score "userData" "user stuff" (by decide)⟩

/-- The five classification strings of step 6. -/
def classificationStrings : List String :=
  ["Name different from implementation - Wrong name",
   "Name somewhat reflects implementation - Consider changing",
   "Name reflects implementation - needs improvement",
   "Name reflects implementation - good",
   "Name reflects implementation well"]

/-- **C4.**  The reason sequence is never empty and its last element is the
classification string chosen from the pre-clamp score by the ascending bands
0.3, 0.5, 0.6, 0.7 (first matching band wins), one of the five fixed
strings. -/
theorem C4_last_reason_classification (name impl : String) :
    (calcRelevance name impl).2 ≠ []
      ∧ (calcRelevance name impl).2.getLast?
          = some (classifyReason (preClampScore name impl))
      ∧ classifyReason (preClampScore name impl) ∈ classificationStrings := by
  refine ⟨?_, ?_, ?_⟩
  · simp [calcRelevance]
  · simp [calcRelevance, ← List.append_assoc, List.getLast?_concat]
  · unfold classifyReason classificationStrings
    split_ifs <;> simp

/-- **C5.**  Every score `_calculate_relevance` returns lies in `[0, 1]`,
whatever the raw pre-clamp value was. -/
theorem C5_score_clamped (name impl : String) :
    0 ≤ (calcRelevance name impl).1 ∧ (calcRelevance name impl).1 ≤ 1 := by
  constructor
  · simp only [calcRelevance]
    exact le_max_left 0 _
  · simp only [calcRelevance]
    exact max_le (by norm_num) (min_le_left 1 _)

/-- **C7.**  The splitter is ordered, left-to-right and lowercase on the three
reference examples; on a delimiter-free identifier a new token starts at every
uppercase character met while the buffer is non-empty (so the token count is
one more than the number of uppercase characters after the first position,
and `HTTPServer` segments eagerly at every uppercase letter). -/
theorem C7_split_name :
    splitName "get_user_name" = ["get", "user", "name"]
      ∧ splitName "GetUserName" = ["get", "user", "name"]
      ∧ splitName "x" = ["x"]
      ∧ splitName "HTTPServer" = ["h", "t", "t", "p", "server"]
      ∧ ∀ name : String, name.toList.contains '_' = false → name.toList ≠ [] →
          (splitName name).length
            = 1 + (name.toList.drop 1).countP (fun c => c.isUpper) := by
  refine ⟨by decide, by decide, by decide, by decide, ?_⟩
  intro name hc hne
  rw [splitName, hc]
  simp only [Bool.false_eq_true, if_false]
  cases hl : name.toList with
  | nil => exact absurd hl hne
  | cons c rest =>
    rw [camelSplit]
    simp only [List.isEmpty_nil, Bool.not_true, Bool.and_false, if_neg,
      Bool.false_eq_true, not_false_iff, List.nil_append]
    rw [camelSplit_length rest [c] (by simp)]
    simp

theorem C7_split_name_witness :
    "HTTPServer".toList.contains '_' = false
      ∧ "HTTPServer".toList ≠ []
      ∧ (splitName "HTTPServer").length
          = 1 + ("HTTPServer".toList.drop 1).countP (fun c => c.isUpper) :=
  ⟨by decide, by decide,
    C7_split_name.2.2.2.2 "HTTPServer" (by decide) (by decide)⟩

/-- **C1, counterexample.**  `_is_method` only inspects the bodies of
*module-level* class definitions, so the method `f` of the nested class
`Inner` (reached by the walk) is scored as a top-level function: the claim
that methods are excluded regardless of the class's nesting depth is false. -/
theorem C1_counterexample :
    Stmt.classDef "Inner" none [Stmt.functionDef "f" none [] 3 4]
        ∈ walk (PyModule.mk [Stmt.classDef "Outer" none
            [Stmt.classDef "Inner" none [Stmt.functionDef "f" none [] 3 4]]]).body
      ∧ isFunctionDef (Stmt.functionDef "f" none [] 3 4) = true
      ∧ (analyzeFunctions none (PyModule.mk [Stmt.classDef "Outer" none
            [Stmt.classDef "Inner" none [Stmt.functionDef "f" none [] 3 4]]])).map
          Entry.name = ["f"] := by
  have hw : walk (PyModule.mk [Stmt.classDef "Outer" none
      [Stmt.classDef "Inner" none [Stmt.functionDef "f" none [] 3 4]]]).body
      = [Stmt.classDef "Outer" none
          [Stmt.classDef "Inner" none [Stmt.functionDef "f" none [] 3 4]],
         Stmt.classDef "Inner" none [Stmt.functionDef "f" none [] 3 4],
         Stmt.functionDef "f" none [] 3 4] := by
    simp [Stmt.children]
  refine ⟨?_, rfl, ?_⟩
  · rw [hw]
    decide
  · unfold analyzeFunctions
    rw [hw]
    decide

/-- **C1, amended.**  Every function definition that is a direct element of
the body of a *module-level* class definition is absent from the scored
function nodes (and the `functions` sequence is the entry list built from
exactly those nodes).  Methods of more deeply nested classes are not
excluded, as the counterexample shows. -/
theorem C1_toplevel_methods_excluded (code : Option String) (m : PyModule)
    (nm : String) (doc : Option String) (body : List Stmt) (f : Stmt)
    (hc : Stmt.classDef nm doc body ∈ m.body) (hf : f ∈ body)
    (hfd : isFunctionDef f = true) :
    f ∉ scoredFunctionNodes m
      ∧ analyzeFunctions code m = (scoredFunctionNodes m).map (functionEntryOf code) := by
  refine ⟨?_, analyzeFunctions_eq_map code m⟩
  intro hmem
  have hpred := (List.mem_filter.mp hmem).2
  have hm : isMethod m f = true := by
    unfold isMethod
    rw [List.any_eq_true]
    refine ⟨Stmt.classDef nm doc body, hc, ?_⟩
    simpa using hf
  rw [hm] at hpred
  simp at hpred

theorem C1_toplevel_methods_excluded_witness :
    Stmt.classDef "C" none [Stmt.functionDef "m" none [] 2 3]
        ∈ (PyModule.mk [Stmt.classDef "C" none
            [Stmt.functionDef "m" none [] 2 3]]).body
      ∧ Stmt.functionDef "m" none [] 2 3 ∈ [Stmt.functionDef "m" none [] 2 3]
      ∧ isFunctionDef (Stmt.functionDef "m" none [] 2 3) = true
      ∧ (Stmt.functionDef "m" none [] 2 3
            ∉ scoredFunctionNodes (PyModule.mk [Stmt.classDef "C" none
                [Stmt.functionDef "m" none [] 2 3]])
          ∧ analyzeFunctions none (PyModule.mk [Stmt.classDef "C" none
                [Stmt.functionDef "m" none [] 2 3]])
              = (scoredFunctionNodes (PyModule.mk [Stmt.classDef "C" none
                  [Stmt.functionDef "m" none [] 2 3]])).map (functionEntryOf none)) :=
  ⟨by decide, by decide, rfl,
    C1_toplevel_methods_excluded none
      (PyModule.mk [Stmt.classDef "C" none [Stmt.functionDef "m" none [] 2 3]])
      "C" none [Stmt.functionDef "m" none [] 2 3]
      (Stmt.functionDef "m" none [] 2 3) (by decide) (by decide) rfl⟩

/-- **C6.**  On a successful parse, `overall_score` is the arithmetic mean of
the relevance scores of all reported classes and functions combined, and 0
when there are none. -/
theorem C6_overall_score_mean (code : Option String) (m : PyModule)
    (report : Report) (h : analyze code (some m) = AnalysisResult.ok report) :
    (report.classes ++ report.functions = [] → report.overall_score = 0)
      ∧ (report.classes ++ report.functions ≠ [] →
          report.overall_score =
            ((report.classes ++ report.functions).map Entry.relevance_score).sum
              / (((report.classes ++ report.functions).length : ℚ))) := by
  have hrep : buildReport code m = report := by
    have h2 : AnalysisResult.ok (buildReport code m) = AnalysisResult.ok report := h
    exact AnalysisResult.ok.inj h2
  subst hrep
  constructor
  · intro h0
    have h1 := List.append_eq_nil.mp h0
    have hcl : analyzeClasses m = [] := h1.1
    have hfn : analyzeFunctions code m = [] := h1.2
    simp [buildReport, hcl, hfn]
  · intro h0
    have h1 : (buildReport code m).classes ++ (buildReport code m).functions
        = analyzeClasses m ++ analyzeFunctions code m := rfl
    rw [h1] at h0 ⊢
    have h2 : analyzeClasses m ++ analyzeFunctions code m ≠ [] := h0
    have h3 : (analyzeClasses m).map Entry.relevance_score
        ++ (analyzeFunctions code m).map Entry.relevance_score
        = (analyzeClasses m ++ analyzeFunctions code m).map Entry.relevance_score :=
      (List.map_append _ _ _).symm
    have h4 : ((analyzeClasses m ++ analyzeFunctions code m).map
        Entry.relevance_score).isEmpty = false := by
      rw [List.isEmpty_eq_false_iff_exists_mem]
      obtain ⟨x, hx⟩ := List.exists_mem_of_ne_nil _ h2
      exact ⟨Entry.relevance_score x, List.mem_map_of_mem _ hx⟩
    show (if _ then _ else _) = _
    rw [h3, h4]
    simp

theorem C6_overall_score_mean_witness :
    analyze none (some (PyModule.mk []))
        = AnalysisResult.ok (buildReport none (PyModule.mk []))
      ∧ ((buildReport none (PyModule.mk [])).classes
            ++ (buildReport none (PyModule.mk [])).functions = [] →
          (buildReport none (PyModule.mk [])).overall_score = 0) :=
  ⟨rfl, (C6_overall_score_mean none (PyModule.mk [])
      (buildReport none (PyModule.mk [])) rfl).1⟩

/-- Case analysis on the `if score < 0.7` that fills the suggestion field. -/
theorem ite_suggestion_cases (s : ℚ) (g : String) :
    ((0.7 : ℚ) ≤ s → (if s < 0.7 then some g else none) = none)
      ∧ (s < 0.7 → (if s < 0.7 then (some g : Option String) else none).isSome = true) := by
  constructor
  · intro hge
    rw [if_neg (not_lt.mpr hge)]
  · intro hlt
    rw [if_pos hlt]
    rfl

/-- **C8.**  An entry of the report carries no suggestion when its relevance
score is at least 0.7, and carries one when the score is below 0.7. -/
theorem C8_suggestion_presence (code : Option String) (m : PyModule) (e : Entry)
    (h : e ∈ (buildReport code m).classes ++ (buildReport code m).functions) :
    ((0.7 : ℚ) ≤ e.relevance_score → e.suggestion = none)
      ∧ (e.relevance_score < 0.7 → e.suggestion.isSome = true) := by
  have h2 : e ∈ analyzeClasses m ++ analyzeFunctions code m := h
  rcases List.mem_append.mp h2 with hcl | hfn
  · unfold analyzeClasses at hcl
    rcases List.mem_filterMap.mp hcl with ⟨node, hnode, hget⟩
    cases node with
    | classDef nm doc body =>
      have he := Option.some.inj hget
      rw [← he]
      exact ite_suggestion_cases _ _
    | functionDef nm doc b ln el => exact Option.noConfusion hget
    | asyncFunctionDef nm doc b ln el => exact Option.noConfusion hget
    | assign t => exact Option.noConfusion hget
    | other b => exact Option.noConfusion hget
  · unfold analyzeFunctions at hfn
    rcases List.mem_filterMap.mp hfn with ⟨node, hnode, hget⟩
    cases node with
    | functionDef nm doc b ln el =>
      have hget2 : (if isMethod m (Stmt.functionDef nm doc b ln el) then none
          else some (mkFunctionEntry code nm doc ln el)) = some e := hget
      by_cases hmeth : isMethod m (Stmt.functionDef nm doc b ln el)
      · rw [if_pos hmeth] at hget2
        exact Option.noConfusion hget2
      · rw [if_neg hmeth] at hget2
        have he := Option.some.inj hget2
        rw [← he]
        exact ite_suggestion_cases _ _
    | classDef nm doc body => exact Option.noConfusion hget
    | asyncFunctionDef nm doc b ln el => exact Option.noConfusion hget
    | assign t => exact Option.noConfusion hget
    | other b => exact Option.noConfusion hget

theorem C8_suggestion_presence_witness :
    mkFunctionEntry none "f" none 1 1
        ∈ (buildReport none (PyModule.mk [Stmt.functionDef "f" none [] 1 1])).classes
          ++ (buildReport none (PyModule.mk [Stmt.functionDef "f" none [] 1 1])).functions
      ∧ (((0.7 : ℚ) ≤ (mkFunctionEntry none "f" none 1 1).relevance_score →
            (mkFunctionEntry none "f" none 1 1).suggestion = none)
          ∧ ((mkFunctionEntry none "f" none 1 1).relevance_score < 0.7 →
            ((mkFunctionEntry none "f" none 1 1).suggestion).isSome = true)) := by
  have hmem : mkFunctionEntry none "f" none 1 1
      ∈ (buildReport none (PyModule.mk [Stmt.functionDef "f" none [] 1 1])).classes
        ++ (buildReport none (PyModule.mk [Stmt.functionDef "f" none [] 1 1])).functions := by
    show mkFunctionEntry none "f" none 1 1
        ∈ analyzeClasses (PyModule.mk [Stmt.functionDef "f" none [] 1 1])
          ++ analyzeFunctions none (PyModule.mk [Stmt.functionDef "f" none [] 1 1])
    unfold analyzeClasses analyzeFunctions
    have hw : walk (PyModule.mk [Stmt.functionDef "f" none [] 1 1]).body
        = [Stmt.functionDef "f" none [] 1 1] := by
      simp [Stmt.children]
    rw [hw]
    simp [isMethod]
  exact ⟨hmem, C8_suggestion_presence none _ _ hmem⟩

/-- **C9.**  When loading or parsing fails (`self.tree = None`), `analyze`
returns only the error structure, never a report. -/
theorem C9_parse_failure (code : Option String) :
    analyze code none = AnalysisResult.error "Failed to parse the file"
      ∧ ∀ r : Report, analyze code none ≠ AnalysisResult.ok r := by
  refine ⟨rfl, ?_⟩
  intro r hr
  exact AnalysisResult.noConfusion hr

/-- **C10.**  Async function definitions are never scored: whatever the
module, no async node is among the scored function nodes (from which the
`functions` entries are built one-to-one), and the method-name portion of a
class summary is unchanged when the async definitions are removed from the
body — they contribute no method name. -/
theorem C10_async_never_scored (code : Option String) (m : PyModule)
    (s : Stmt) (body : List Stmt) (h : isAsyncFunctionDef s = true) :
    s ∉ scoredFunctionNodes m
      ∧ analyzeFunctions code m = (scoredFunctionNodes m).map (functionEntryOf code)
      ∧ methodNames (body.filter (fun t => !isAsyncFunctionDef t)) = methodNames body := by
  refine ⟨?_, analyzeFunctions_eq_map code m, ?_⟩
  · intro hmem
    have hpred := (List.mem_filter.mp hmem).2
    cases s with
    | asyncFunctionDef nm doc b ln el => simp [isFunctionDef] at hpred
    | classDef nm doc b => simp [isAsyncFunctionDef] at h
    | functionDef nm doc b ln el => simp [isAsyncFunctionDef] at h
    | assign t => simp [isAsyncFunctionDef] at h
    | other b => simp [isAsyncFunctionDef] at h
  · induction body with
    | nil => rfl
    | cons t rest ih =>
      cases t with
      | asyncFunctionDef nm doc b ln el =>
        simp [methodNames, List.filter_cons, isAsyncFunctionDef,
          List.filterMap_cons] at ih ⊢
        exact ih
      | classDef nm doc b =>
        simp [methodNames, List.filter_cons, isAsyncFunctionDef,
          List.filterMap_cons] at ih ⊢
        exact ih
      | functionDef nm doc b ln el =>
        simp [methodNames, List.filter_cons, isAsyncFunctionDef,
          List.filterMap_cons] at ih ⊢
        exact ih
      | assign t2 =>
        simp [methodNames, List.filter_cons, isAsyncFunctionDef,
          List.filterMap_cons] at ih ⊢
        exact ih
      | other b =>
        simp [methodNames, List.filter_cons, isAsyncFunctionDef,
          List.filterMap_cons] at ih ⊢
        exact ih

theorem C10_async_never_scored_witness :
    isAsyncFunctionDef (Stmt.asyncFunctionDef "g" none [] 1 1) = true
      ∧ (Stmt.asyncFunctionDef "g" none [] 1 1
            ∉ scoredFunctionNodes (PyModule.mk [Stmt.asyncFunctionDef "g" none [] 1 1])
          ∧ analyzeFunctions none (PyModule.mk [Stmt.asyncFunctionDef "g" none [] 1 1])
              = (scoredFunctionNodes
                  (PyModule.mk [Stmt.asyncFunctionDef "g" none [] 1 1])).map
                  (functionEntryOf none)
          ∧ methodNames ([Stmt.asyncFunctionDef "g" none [] 1 1,
                Stmt.functionDef "h" none [] 2 2].filter
                (fun t => !isAsyncFunctionDef t))
              = methodNames [Stmt.asyncFunctionDef "g" none [] 1 1,
                  Stmt.functionDef "h" none [] 2 2]) :=
  ⟨rfl, C10_async_never_scored none _ _ _ rfl⟩

end NRD
